import Mathlib

/-!
# Verification of the hamada-yed7ak game core

Shallow embedding of the unified game-state hook (`useGameState` in
`src/hooks/useGameProgress.js`), the `AudioManager` audio-synthesis service,
and the asset preloader (`src/hooks/useAssetPreloader.js`), together with
proofs of the specified properties.

All JavaScript numbers that matter here are integers; they are modelled as
`Int` (scores, lives, volumes) or `Nat` (level ids, counters).  JavaScript
objects used as string-keyed records are modelled as association lists with
JavaScript's insertion-order/replace-in-place update semantics.
-/

namespace Hamada

/-! ## Game configuration (`src/data/gameData.js`)

`GAME_CONFIG = { INITIAL_LIVES: 3, POINTS_PER_LEVEL: 100, ... }` and
`gameLevels` is the static list of levels (4 entries); each level has a
`correctMouth` id among its four options. -/

def GAME_CONFIG_INITIAL_LIVES : Int := 3

def gameLevelsLength : Nat := 4

/-! ## Session state machine (`useGameState`, session part)

The ephemeral per-level session state: `sessionScore`, `lives`, `attempts`,
`isLevelComplete`, `selectedMouth`, `isShaking`, `gameOver`.  The 200ms/400ms
deferred callbacks (confetti, shake-clear) only touch `isShaking` and
`selectedMouth` later; `handleMouthSelect` below is the synchronous state
transition performed by the handler. -/

structure Session where
  sessionScore : Int
  lives : Int
  attempts : Nat
  isLevelComplete : Bool
  selectedMouth : Option String
  isShaking : Bool
  gameOver : Bool
  deriving Repr, DecidableEq

/-- The `useState` initial values of the session. -/
def initialSession : Session :=
  { sessionScore := 0
    lives := GAME_CONFIG_INITIAL_LIVES
    attempts := 0
    isLevelComplete := false
    selectedMouth := none
    isShaking := false
    gameOver := false }

/-- `POINTS_BY_ATTEMPT = { 1: 100, 2: 70, 3: 40 }`. -/
def POINTS_BY_ATTEMPT : List (Nat × Int) := [(1, 100), (2, 70), (3, 40)]

/-- Association-list lookup, modelling JavaScript property access
`obj[key]` returning `undefined` when the key is absent. -/
def alistLookup {α β : Type} [DecidableEq α] : List (α × β) → α → Option β
  | [], _ => none
  | (k, v) :: t, key => if k = key then some v else alistLookup t key

/-- `getPointsForAttempt(n) = POINTS_BY_ATTEMPT[n] || 40`.
The three table values are truthy, so `|| 40` only fires on a missed
lookup. -/
def getPointsForAttempt (attemptNumber : Nat) : Int :=
  (alistLookup POINTS_BY_ATTEMPT attemptNumber).getD 40

/-- `handleMouthSelect(mouthId)` (session-state part): guarded no-op when the
level is already complete or the game is over; otherwise records the
selection, increments the attempt counter, and either awards points and
completes the level (correct) or shakes, decrements lives and possibly sets
game-over (wrong).  `correctMouth` is `currentLevel.correctMouth`. -/
def handleMouthSelect (correctMouth : String) (mouthId : String)
    (st : Session) : Session :=
  if st.isLevelComplete || st.gameOver then st
  else
    let newAttempts := st.attempts + 1
    if mouthId = correctMouth then
      let pointsEarned := getPointsForAttempt newAttempts
      { st with
        selectedMouth := some mouthId
        attempts := newAttempts
        sessionScore := st.sessionScore + pointsEarned
        isLevelComplete := true }
    else
      let newLives := st.lives - 1
      { st with
        selectedMouth := some mouthId
        attempts := newAttempts
        isShaking := true
        lives := newLives
        gameOver := if newLives ≤ 0 then true else st.gameOver }

/-- `handleResetLevel()`: reinitialize the whole session. -/
def handleResetLevel (_st : Session) : Session := initialSession

/-- Apply a list of selections in order. -/
def runSelections (correctMouth : String) (mouthIds : List String)
    (st : Session) : Session :=
  mouthIds.foldl (fun s m => handleMouthSelect correctMouth m s) st

end Hamada

namespace Hamada

/-! ### Helper lemmas about the session machine -/

lemma getPointsForAttempt_one : getPointsForAttempt 1 = 100 := by
  simp [getPointsForAttempt, alistLookup, POINTS_BY_ATTEMPT]

lemma getPointsForAttempt_two : getPointsForAttempt 2 = 70 := by
  simp [getPointsForAttempt, alistLookup, POINTS_BY_ATTEMPT]

lemma getPointsForAttempt_three : getPointsForAttempt 3 = 40 := by
  simp [getPointsForAttempt, alistLookup, POINTS_BY_ATTEMPT]

lemma getPointsForAttempt_of_ge4 (n : Nat) (hn : 4 ≤ n) :
    getPointsForAttempt n = 40 := by
  have h1 : (1 : Nat) ≠ n := by omega
  have h2 : (2 : Nat) ≠ n := by omega
  have h3 : (3 : Nat) ≠ n := by omega
  simp [getPointsForAttempt, alistLookup, POINTS_BY_ATTEMPT, h1, h2, h3]

/-- Selections on a completed or game-over session are ignored. -/
lemma handleMouthSelect_guard (c m : String) (st : Session)
    (h : st.isLevelComplete = true ∨ st.gameOver = true) :
    handleMouthSelect c m st = st := by
  rcases h with h | h <;> simp [handleMouthSelect, h]

/-- Once the level is complete, any further list of selections is ignored. -/
lemma runSelections_of_complete (c : String) (ms : List String) (st : Session)
    (h : st.isLevelComplete = true) :
    runSelections c ms st = st := by
  induction ms with
  | nil => rfl
  | cons m t ih =>
      simp only [runSelections, List.foldl_cons]
      rw [handleMouthSelect_guard c m st (Or.inl h)]
      exact ih

/-- A correct selection on a live session completes the level and adds the
attempt-table points. -/
lemma handleMouthSelect_correct (c m : String) (st : Session)
    (h1 : st.isLevelComplete = false) (h2 : st.gameOver = false)
    (h3 : m = c) :
    handleMouthSelect c m st =
      { st with
        selectedMouth := some m
        attempts := st.attempts + 1
        sessionScore := st.sessionScore + getPointsForAttempt (st.attempts + 1)
        isLevelComplete := true } := by
  simp [handleMouthSelect, h1, h2, h3]

/-- A wrong selection on a live session decrements lives and sets game-over
exactly when the new life count is ≤ 0. -/
lemma handleMouthSelect_wrong (c m : String) (st : Session)
    (h1 : st.isLevelComplete = false) (h2 : st.gameOver = false)
    (h3 : m ≠ c) :
    handleMouthSelect c m st =
      { st with
        selectedMouth := some m
        attempts := st.attempts + 1
        isShaking := true
        lives := st.lives - 1
        gameOver := if st.lives - 1 ≤ 0 then true else false } := by
  simp [handleMouthSelect, h1, h2, h3]

end Hamada

namespace Hamada

/-- **C1.** For every correct selection handled by `handleMouthSelect`, the
points added to the session score are `getPointsForAttempt` of the attempt
number of that selection (the previous attempt count plus one): 100 points
on the 1st attempt, 70 on the 2nd, 40 on the 3rd and on every later
attempt; the awarded points are never negative and never exceed 100. -/
theorem C1_attempt_based_scoring :
    (∀ (st : Session) (c m : String),
        st.isLevelComplete = false → st.gameOver = false → m = c →
        (handleMouthSelect c m st).sessionScore
          = st.sessionScore + getPointsForAttempt (st.attempts + 1)) ∧
    getPointsForAttempt 1 = 100 ∧
    getPointsForAttempt 2 = 70 ∧
    getPointsForAttempt 3 = 40 ∧
    (∀ n : Nat, 4 ≤ n → getPointsForAttempt n = 40) ∧
    (∀ n : Nat, 0 ≤ getPointsForAttempt n ∧ getPointsForAttempt n ≤ 100) := by
  refine ⟨?_, getPointsForAttempt_one, getPointsForAttempt_two,
    getPointsForAttempt_three, getPointsForAttempt_of_ge4, ?_⟩
  · intro st c m h1 h2 h3
    rw [handleMouthSelect_correct c m st h1 h2 h3]
  · intro n
    match n, Nat.lt_or_ge n 4 with
    | 0, _ => exact ⟨by decide, by decide⟩
    | 1, _ => rw [getPointsForAttempt_one]; exact ⟨by decide, by decide⟩
    | 2, _ => rw [getPointsForAttempt_two]; exact ⟨by decide, by decide⟩
    | 3, _ => rw [getPointsForAttempt_three]; exact ⟨by decide, by decide⟩
    | (n + 4), _ =>
        rw [getPointsForAttempt_of_ge4 (n + 4) (by omega)]
        exact ⟨by decide, by decide⟩

/-- Witness for C1: on a fresh session, a first-attempt correct selection
adds exactly `getPointsForAttempt 1` points. -/
theorem C1_attempt_based_scoring_witness :
    (handleMouthSelect "m2" "m2" initialSession).sessionScore
      = initialSession.sessionScore + getPointsForAttempt 1 :=
  C1_attempt_based_scoring.1 initialSession "m2" "m2" rfl rfl rfl

/-- **C6.** A session starts with 3 lives; three incorrect selections in one
level with no intervening correct selection set `gameOver`; a correct
selection before lives are exhausted prevents `gameOver` from ever being
set by later selections in that level; and selections after level
completion or game-over are ignored (the state is unchanged). -/
theorem C6_lives_and_game_over :
    initialSession.lives = 3 ∧
    (∀ (st : Session) (c w1 w2 w3 : String),
        st.lives = 3 → st.isLevelComplete = false → st.gameOver = false →
        w1 ≠ c → w2 ≠ c → w3 ≠ c →
        (runSelections c [w1, w2, w3] st).gameOver = true) ∧
    (∀ (st : Session) (c m : String) (rest : List String),
        st.isLevelComplete = false → st.gameOver = false → m = c →
        (runSelections c (m :: rest) st).gameOver = false) ∧
    (∀ (st : Session) (c m : String),
        st.isLevelComplete = true ∨ st.gameOver = true →
        handleMouthSelect c m st = st) := by
  refine ⟨rfl, ?_, ?_, fun st c m h => handleMouthSelect_guard c m st h⟩
  · intro st c w1 w2 w3 hl h1 h2 hw1 hw2 hw3
    simp only [runSelections, List.foldl_cons, List.foldl_nil]
    rw [handleMouthSelect_wrong c w1 st h1 h2 hw1]
    rw [handleMouthSelect_wrong c w2 _ (by simp [h1]) (by simp [hl]) hw2]
    rw [handleMouthSelect_wrong c w3 _ (by simp [h1]) (by simp [hl]) hw3]
    simp [hl]
  · intro st c m rest h1 h2 h3
    simp only [runSelections, List.foldl_cons]
    rw [handleMouthSelect_correct c m st h1 h2 h3]
    have := runSelections_of_complete c rest
      { st with
        selectedMouth := some m
        attempts := st.attempts + 1
        sessionScore := st.sessionScore + getPointsForAttempt (st.attempts + 1)
        isLevelComplete := true } rfl
    simp only [runSelections] at this
    rw [this]
    exact h2

/-- Witness for C6: from a fresh session, three wrong picks trigger
game-over, and a correct first pick keeps `gameOver` false afterwards. -/
theorem C6_lives_and_game_over_witness :
    (runSelections "m2" ["m1", "m1", "m1"] initialSession).gameOver = true ∧
    (runSelections "m2" ["m2", "m1", "m1"] initialSession).gameOver = false :=
  ⟨C6_lives_and_game_over.2.1 initialSession "m2" "m1" "m1" "m1" rfl rfl rfl
      (by decide) (by decide) (by decide),
   C6_lives_and_game_over.2.2.1 initialSession "m2" "m2" ["m1", "m1"]
      rfl rfl rfl⟩

end Hamada

namespace Hamada

/-! ## AudioManager (`src/unnamed/part_007`, class `AudioManagerClass`)

The Web Audio context is modelled as `Option ℚ`: `none` is the `null` field
before a successful `init()`, `some t` an initialized context whose
`currentTime` is `t`.  Frequencies/durations/volumes are exact decimal
numbers in the source, modelled as `ℚ`.  JavaScript expression evaluation
that can throw (reading a property of `null`) is modelled with
`Except String`. -/

structure AMState where
  initialized : Bool
  audioContext : Option ℚ
  musicVolume : Int
  sfxVolume : Int
  isMusicMuted : Bool
  isSfxMuted : Bool
  deriving Repr, DecidableEq

/-- Constructor state of the singleton `AudioManager`. -/
def initialAM : AMState :=
  { initialized := false
    audioContext := none
    musicVolume := 70
    sfxVolume := 80
    isMusicMuted := false
    isSfxMuted := false }

/-- `setMusicVolume(volume)`: clamp into [0,100]; the gain ramp applied to
the music gain node has no further observable state here. -/
def setMusicVolume (volume : Int) (st : AMState) : AMState :=
  { st with musicVolume := max 0 (min 100 volume) }

/-- `setSfxVolume(volume)`: clamp into [0,100]. -/
def setSfxVolume (volume : Int) (st : AMState) : AMState :=
  { st with sfxVolume := max 0 (min 100 volume) }

/-- `init()`: no-op when already initialized; otherwise try to construct the
audio context.  `envSupported` says whether `window.AudioContext` is
available: when it is not, the constructor throws, the `catch` logs, and
`audioContext` stays `null` with `initialized` still `false`. -/
def init (envSupported : Bool) (st : AMState) : AMState :=
  if st.initialized then st
  else if envSupported then
    let st1 := { st with audioContext := some 0 }
    let st2 := setMusicVolume st1.musicVolume st1
    let st3 := setSfxVolume st2.sfxVolume st2
    { st3 with initialized := true }
  else st

/-- `ensureReady()`: init if needed (the `resume()` of a suspended context
has no observable effect in this model). -/
def ensureReady (envSupported : Bool) (st : AMState) : AMState :=
  if !st.initialized then init envSupported st else st

/-- `toggleMusicMute()`. -/
def toggleMusicMute (st : AMState) : AMState × Bool :=
  let st1 := { st with isMusicMuted := !st.isMusicMuted }
  (setMusicVolume st1.musicVolume st1, st1.isMusicMuted)

/-- `toggleSfxMute()`. -/
def toggleSfxMute (st : AMState) : AMState × Bool :=
  let st1 := { st with isSfxMuted := !st.isSfxMuted }
  (setSfxVolume st1.sfxVolume st1, st1.isSfxMuted)

/-- `toggleMute()`: `shouldMute = !isMusicMuted || !isSfxMuted`; set both
flags to it, reapply both volumes, return it. -/
def toggleMute (st : AMState) : AMState × Bool :=
  let shouldMute := !st.isMusicMuted || !st.isSfxMuted
  let st1 := { st with isMusicMuted := shouldMute, isSfxMuted := shouldMute }
  let st2 := setMusicVolume st1.musicVolume st1
  let st3 := setSfxVolume st2.sfxVolume st2
  (st3, shouldMute)

/-- `isMuted()`. -/
def isMutedQuery (st : AMState) : Bool :=
  st.isMusicMuted && st.isSfxMuted

/-- One scheduled oscillator phrase (`createOscillator` + envelope). -/
structure ToneEvent where
  frequencies : List ℚ
  duration : ℚ
  wave : String
  volume : ℚ
  startTime : ℚ
  deriving Repr, DecidableEq

/-- Reading `this.audioContext.currentTime`: a TypeError when the context is
`null`. -/
def currentTime (st : AMState) : Except String ℚ :=
  match st.audioContext with
  | none => Except.error "TypeError: cannot read currentTime of null"
  | some t => Except.ok t

/-- `_playToneAt(frequencies, duration, type, volume, startTime)`: guarded
no-op when the context is missing, SFX are muted, or SFX volume is 0;
otherwise schedules one oscillator phrase. -/
def playToneAt (st : AMState) (frequencies : List ℚ) (duration : ℚ)
    (wave : String) (volume : ℚ) (startTime : ℚ) : List ToneEvent :=
  if st.audioContext = none ∨ st.isSfxMuted = true ∨ st.sfxVolume = 0 then []
  else [⟨frequencies, duration, wave, volume, startTime⟩]

/-- `_playTone(frequencies, duration, type, volume)`: evaluates
`this.audioContext.currentTime` *before* entering `_playToneAt`, so it
throws when the context is `null`. -/
def playTone (st : AMState) (frequencies : List ℚ) (duration : ℚ)
    (wave : String) (volume : ℚ) : Except String (List ToneEvent) := do
  let t ← currentTime st
  pure (playToneAt st frequencies duration wave volume t)

/-- `playCorrect()`. -/
def playCorrect (envSupported : Bool) (st : AMState) :
    Except String (AMState × List ToneEvent) := do
  let st := ensureReady envSupported st
  let evs ← playTone st [523.25, 659.25, 783.99] 0.12 "sine" 0.4
  pure (st, evs)

/-- `playWrong()`. -/
def playWrong (envSupported : Bool) (st : AMState) :
    Except String (AMState × List ToneEvent) := do
  let st := ensureReady envSupported st
  let evs ← playTone st [311.13, 233.08] 0.15 "sawtooth" 0.25
  pure (st, evs)

/-- `playLevelComplete()`: reads `this.audioContext.currentTime` directly,
then schedules four phrases. -/
def playLevelComplete (envSupported : Bool) (st : AMState) :
    Except String (AMState × List ToneEvent) := do
  let st := ensureReady envSupported st
  let now ← currentTime st
  pure (st,
    playToneAt st [523.25] 0.2 "sine" 0.35 now ++
    playToneAt st [659.25] 0.2 "sine" 0.35 (now + 0.1) ++
    playToneAt st [783.99] 0.2 "sine" 0.35 (now + 0.2) ++
    playToneAt st [1046.5] 0.3 "sine" 0.4 (now + 0.3))

/-- `playClick()`. -/
def playClick (envSupported : Bool) (st : AMState) :
    Except String (AMState × List ToneEvent) := do
  let st := ensureReady envSupported st
  let evs ← playTone st [800, 600] 0.05 "sine" 0.15
  pure (st, evs)

/-- `playHover()`. -/
def playHover (envSupported : Bool) (st : AMState) :
    Except String (AMState × List ToneEvent) := do
  let st := ensureReady envSupported st
  let evs ← playTone st [1200] 0.03 "sine" 0.08
  pure (st, evs)

/-- `playGameOver()`: reads `this.audioContext.currentTime` directly, then
schedules four phrases. -/
def playGameOver (envSupported : Bool) (st : AMState) :
    Except String (AMState × List ToneEvent) := do
  let st := ensureReady envSupported st
  let now ← currentTime st
  pure (st,
    playToneAt st [392] 0.3 "triangle" 0.3 now ++
    playToneAt st [349.23] 0.3 "triangle" 0.3 (now + 0.2) ++
    playToneAt st [329.63] 0.4 "triangle" 0.3 (now + 0.4) ++
    playToneAt st [293.66] 0.5 "triangle" 0.35 (now + 0.6))

end Hamada

namespace Hamada

/-- **C5 (refuted by the code).** The claim says every tone-cue playback
call made while `audioContext` is still `null` (initialization failed, e.g.
an unsupported environment) is ignored without error.  In the code,
`_playTone` evaluates `this.audioContext.currentTime` *before* the null
guard inside `_playToneAt` can run, and `playLevelComplete`/`playGameOver`
read `currentTime` directly — so every one of the six playback entry points
raises a TypeError when `audioContext` is `null`.  This theorem evaluates
all six at the failing input (fresh manager, environment without
`AudioContext` support); the last conjunct shows the guard inside
`_playToneAt` alone would have been the intended silent no-op. -/
theorem C5_playback_null_typeerror :
    playCorrect false initialAM
      = Except.error "TypeError: cannot read currentTime of null" ∧
    playWrong false initialAM
      = Except.error "TypeError: cannot read currentTime of null" ∧
    playLevelComplete false initialAM
      = Except.error "TypeError: cannot read currentTime of null" ∧
    playGameOver false initialAM
      = Except.error "TypeError: cannot read currentTime of null" ∧
    playClick false initialAM
      = Except.error "TypeError: cannot read currentTime of null" ∧
    playHover false initialAM
      = Except.error "TypeError: cannot read currentTime of null" ∧
    playToneAt initialAM [523.25, 659.25, 783.99] 0.12 "sine" 0.4 0 = [] :=
  ⟨rfl, rfl, rfl, rfl, rfl, rfl, rfl⟩

/-- **C10.** After any `toggleMute()` call the two mute flags are equal;
the call mutes both buses and returns `true` exactly when at least one bus
was unmuted before the call, and unmutes both and returns `false` only when
both were already muted; `isMuted()` holds exactly when both flags are
true. -/
theorem C10_toggleMute_couples_buses :
    ∀ st : AMState,
      (toggleMute st).1.isMusicMuted = (toggleMute st).1.isSfxMuted ∧
      ((toggleMute st).2 = true ↔
        (st.isMusicMuted = false ∨ st.isSfxMuted = false)) ∧
      ((toggleMute st).2 = true →
        (toggleMute st).1.isMusicMuted = true ∧
        (toggleMute st).1.isSfxMuted = true) ∧
      ((toggleMute st).2 = false →
        st.isMusicMuted = true ∧ st.isSfxMuted = true ∧
        (toggleMute st).1.isMusicMuted = false ∧
        (toggleMute st).1.isSfxMuted = false) ∧
      isMutedQuery st = (st.isMusicMuted && st.isSfxMuted) := by
  intro st
  rcases st with ⟨i, a, mv, sv, mm, sm⟩
  cases mm <;> cases sm <;>
    simp [toggleMute, setMusicVolume, setSfxVolume, isMutedQuery]

/-- Witness for C10: on the fresh (both-unmuted) manager, `toggleMute`
returns `true` and leaves both buses muted. -/
theorem C10_toggleMute_couples_buses_witness :
    (toggleMute initialAM).1.isMusicMuted = true ∧
    (toggleMute initialAM).1.isSfxMuted = true :=
  (C10_toggleMute_couples_buses initialAM).2.2.1 rfl

end Hamada

namespace Hamada

/-! ## Persisted game state (`useGameState`, persisted part)

JavaScript objects used as records are association lists in insertion
order.  `alistSet` is property assignment / literal override: it replaces
the value in place when the key exists and appends otherwise — exactly the
JS semantics of `{...obj, k: v}` and `obj[k] = v`.  `objSpread a b` is
`{...a, ...b}`. -/

/-- JSON-ish JavaScript values (settings leaves are numbers and booleans;
`0.7` is an exact decimal, modelled in `ℚ`). -/
inductive JVal where
  | jnum (q : ℚ)
  | jbool (b : Bool)
  | jstr (s : String)
  | jnull
  | jobj (fields : List (String × JVal))
  deriving Repr

/-- JS property assignment on an association list. -/
def alistSet {α β : Type} [DecidableEq α] : List (α × β) → α → β → List (α × β)
  | [], k, v => [(k, v)]
  | (k', v') :: t, k, v =>
      if k' = k then (k, v) :: t else (k', v') :: alistSet t k v

/-- JS object spread `{...a, ...b}`. -/
def objSpread (a b : List (String × JVal)) : List (String × JVal) :=
  b.foldl (fun acc kv => alistSet acc kv.1 kv.2) a

/-- The fields of a value when it is an object; spreading anything else
contributes nothing (`{...undefined}` is `{}`). -/
def fieldsOf : Option JVal → List (String × JVal)
  | some (JVal.jobj f) => f
  | _ => []

/-- The dotted-path walk of `updateSetting`: descend along all keys but the
last, then assign the last key.  `none` models the TypeError the JS walk
raises when an intermediate key is missing or not an object. -/
def setPathFields : List (String × JVal) → List String → JVal →
    Option (List (String × JVal))
  | _, [], _ => none
  | fields, [k], v => some (alistSet fields k v)
  | fields, k :: k2 :: ks, v =>
      match alistLookup fields k with
      | some (JVal.jobj inner) =>
          (setPathFields inner (k2 :: ks) v).map
            (fun inner2 => alistSet fields k (JVal.jobj inner2))
      | _ => none

/-- The settings object shape of `DEFAULT_STATE.settings`, parametrized by
its nine leaf values. -/
def mkAudioFields (mv sv mm sm : JVal) : List (String × JVal) :=
  [("musicVolume", mv), ("sfxVolume", sv),
   ("isMusicMuted", mm), ("isSfxMuted", sm)]

def mkHapticsFields (en it : JVal) : List (String × JVal) :=
  [("enabled", en), ("intensity", it)]

def mkAccessFields (srm hc rm : JVal) : List (String × JVal) :=
  [("screenReaderMode", srm), ("highContrast", hc), ("reduceMotion", rm)]

def mkSettings (mv sv mm sm en it srm hc rm : JVal) : List (String × JVal) :=
  [("audio", JVal.jobj (mkAudioFields mv sv mm sm)),
   ("haptics", JVal.jobj (mkHapticsFields en it)),
   ("accessibility", JVal.jobj (mkAccessFields srm hc rm))]

/-- `DEFAULT_STATE.settings.audio`. -/
def defaultAudioFields : List (String × JVal) :=
  mkAudioFields (JVal.jnum 70) (JVal.jnum 80) (JVal.jbool false)
    (JVal.jbool false)

/-- `DEFAULT_STATE.settings.haptics`. -/
def defaultHapticsFields : List (String × JVal) :=
  mkHapticsFields (JVal.jbool true) (JVal.jnum 0.7)

/-- `DEFAULT_STATE.settings.accessibility`. -/
def defaultAccessFields : List (String × JVal) :=
  mkAccessFields (JVal.jbool false) (JVal.jbool false) (JVal.jbool false)

/-- `DEFAULT_STATE.settings`. -/
def defaultSettings : List (String × JVal) :=
  mkSettings (JVal.jnum 70) (JVal.jnum 80) (JVal.jbool false)
    (JVal.jbool false) (JVal.jbool true) (JVal.jnum 0.7) (JVal.jbool false)
    (JVal.jbool false) (JVal.jbool false)

/-- The persisted blob stored under `hamada_game_v3` (`DEFAULT_STATE`
shape).  `playerId` is `null` or a string; `bestScores` is an object keyed
by level id. -/
structure GState where
  version : Int
  playerName : String
  playerId : Option String
  unlockedLevels : List Nat
  completedLevels : List Nat
  bestScores : List (Nat × Int)
  highScore : Int
  totalScore : Int
  settings : List (String × JVal)

/-- `DEFAULT_STATE`. -/
def DEFAULT_STATE : GState :=
  { version := 3
    playerName := ""
    playerId := none
    unlockedLevels := [1]
    completedLevels := []
    bestScores := []
    highScore := 0
    totalScore := 0
    settings := defaultSettings }

/-- `prev.bestScores[levelId] || 0` (a stored 0 is falsy and also yields 0,
so the default-on-missing reading is exact for every integer value). -/
def bestScoreOr0 (bs : List (Nat × Int)) (levelId : Nat) : Int :=
  (alistLookup bs levelId).getD 0

/-- `Object.values(bestScores).reduce((sum, s) => sum + s, 0)`. -/
def sumValues (bs : List (Nat × Int)) : Int :=
  (bs.map Prod.snd).sum

/-- `completeLevel(levelId, levelScore)` on the persisted state.
`totalLevels` is `gameLevels.length`. -/
def completeLevel (totalLevels levelId : Nat) (levelScore : Int)
    (st : GState) : GState :=
  let newCompleted :=
    if levelId ∈ st.completedLevels then st.completedLevels
    else st.completedLevels ++ [levelId]
  let nextLevel := levelId + 1
  let newUnlocked :=
    if nextLevel ≤ totalLevels ∧ nextLevel ∉ st.unlockedLevels then
      st.unlockedLevels ++ [nextLevel]
    else st.unlockedLevels
  let newBestScores :=
    alistSet st.bestScores levelId
      (max (bestScoreOr0 st.bestScores levelId) levelScore)
  let newTotalScore := sumValues newBestScores
  let newHighScore := max st.highScore newTotalScore
  { st with
    completedLevels := newCompleted
    unlockedLevels := newUnlocked
    bestScores := newBestScores
    totalScore := newTotalScore
    highScore := newHighScore }

/-- `setPlayerName(name)`: trim, cap at 20 characters. -/
def setPlayerName (name : String) (st : GState) : GState :=
  { st with playerName := (name.trim).take 20 }

/-- `path.split('.')` on the character list: split at every dot, keeping
empty segments, as JS does (structural recursion so it evaluates in the
kernel). -/
def splitOnDotChars : List Char → List (List Char)
  | [] => [[]]
  | c :: t =>
      let rest := splitOnDotChars t
      if c = '.' then [] :: rest
      else (c :: rest.headD []) :: rest.tail

def splitOnDot (s : String) : List String :=
  (splitOnDotChars s.toList).map (fun cs => String.mk cs)

/-- `updateSetting(path, value)` (persisted part; the AudioManager side
effect does not touch the persisted state). -/
def updateSetting (path : String) (value : JVal) (st : GState) :
    Option GState :=
  (setPathFields st.settings (splitOnDot path) value).map
    (fun s => { st with settings := s })

/-- `updateSettings(updates)`: top-level shallow merge. -/
def updateSettings (updates : List (String × JVal)) (st : GState) : GState :=
  { st with settings := objSpread st.settings updates }

/-- `handleResetProgress()`: clear progress, keep settings and profile,
return `true`. -/
def handleResetProgress (st : GState) : GState × Bool :=
  ({ st with
      unlockedLevels := [1]
      completedLevels := []
      bestScores := []
      highScore := 0
      totalScore := 0 }, true)

/-- `handleHardReset()`: back to `DEFAULT_STATE` with a fresh player id. -/
def handleHardReset (gen : String) (_st : GState) : GState :=
  { DEFAULT_STATE with playerId := some gen }

/-- The persisted-state update of the hook's `toggleMute()`: write the
bus-mute flag returned by the AudioManager into both
`settings.audio.isMusicMuted` and `settings.audio.isSfxMuted`. -/
def toggleMuteGS (muted : Bool) (st : GState) : GState :=
  let audio := fieldsOf (alistLookup st.settings "audio")
  { st with
    settings :=
      alistSet st.settings "audio"
        (JVal.jobj
          (alistSet (alistSet audio "isMusicMuted" (JVal.jbool muted))
            "isSfxMuted" (JVal.jbool muted))) }

/-- `loadPersistedState()` applied to a parsed blob that has every
top-level field (which is the case for every blob this hook itself
persisted): the top-level spread `{...DEFAULT_STATE, ...parsed}` then
returns `parsed`'s fields, `playerId` falls back to a freshly generated id
when falsy (`null` or `""`), and the settings groups are deep-merged over
the defaults. -/
def mergeSettingsWithDefaults (p : List (String × JVal)) :
    List (String × JVal) :=
  let base := objSpread defaultSettings p
  let audio := objSpread defaultAudioFields (fieldsOf (alistLookup p "audio"))
  let hap :=
    objSpread defaultHapticsFields (fieldsOf (alistLookup p "haptics"))
  let acc :=
    objSpread defaultAccessFields (fieldsOf (alistLookup p "accessibility"))
  alistSet
    (alistSet (alistSet base "audio" (JVal.jobj audio)) "haptics"
      (JVal.jobj hap))
    "accessibility" (JVal.jobj acc)

def loadPersistedState (gen : String) (parsed : GState) : GState :=
  { parsed with
    playerId := some (match parsed.playerId with
      | some s => if s = "" then gen else s
      | none => gen)
    settings := mergeSettingsWithDefaults parsed.settings }

/-- The persisted-state mutators of the hook, as one operation type
(`gen` stands for the generated player id in `handleHardReset`). -/
inductive GOp where
  | completeLevelOp (levelId : Nat) (score : Int)
  | setPlayerNameOp (name : String)
  | updateSettingOp (path : String) (value : JVal)
  | updateSettingsOp (updates : List (String × JVal))
  | toggleMuteOp (muted : Bool)
  | resetProgressOp
  | hardResetOp (gen : String)

def GOp.isReset : GOp → Bool
  | .resetProgressOp => true
  | .hardResetOp _ => true
  | _ => false

/-- Apply one operation to the persisted state (a failed `updateSetting`
walk throws in JS and leaves the state unchanged). -/
def applyGOp (totalLevels : Nat) : GOp → GState → GState
  | .completeLevelOp l s, st => completeLevel totalLevels l s st
  | .setPlayerNameOp n, st => setPlayerName n st
  | .updateSettingOp p v, st => (updateSetting p v st).getD st
  | .updateSettingsOp u, st => updateSettings u st
  | .toggleMuteOp m, st => toggleMuteGS m st
  | .resetProgressOp, st => (handleResetProgress st).1
  | .hardResetOp g, st => handleHardReset g st

end Hamada

namespace Hamada

/-! ### Association-list lemmas -/

lemma alistLookup_alistSet_self {α β : Type} [DecidableEq α]
    (m : List (α × β)) (k : α) (v : β) :
    alistLookup (alistSet m k v) k = some v := by
  induction m with
  | nil => simp [alistSet, alistLookup]
  | cons kv t ih =>
      obtain ⟨k', v'⟩ := kv
      by_cases h : k' = k
      · simp [alistSet, alistLookup, h]
      · simp [alistSet, alistLookup, h, ih]

lemma alistLookup_alistSet_ne {α β : Type} [DecidableEq α]
    (m : List (α × β)) (k k' : α) (v : β) (h : k' ≠ k) :
    alistLookup (alistSet m k v) k' = alistLookup m k' := by
  have hk : k ≠ k' := Ne.symm h
  induction m with
  | nil => simp [alistSet, alistLookup, hk]
  | cons kv t ih =>
      obtain ⟨k0, v0⟩ := kv
      by_cases h0 : k0 = k
      · subst h0
        simp [alistSet, alistLookup, hk]
      · simp [alistSet, alistLookup, h0, ih]

lemma alistSet_alistSet_same {α β : Type} [DecidableEq α]
    (m : List (α × β)) (k : α) (v : β) :
    alistSet (alistSet m k v) k v = alistSet m k v := by
  induction m with
  | nil => simp [alistSet]
  | cons kv t ih =>
      obtain ⟨k0, v0⟩ := kv
      by_cases h0 : k0 = k
      · simp [alistSet, h0]
      · simp [alistSet, h0, ih]

/-! ### `completeLevel` field lemmas -/

lemma completeLevel_bestScores (tot l : Nat) (s : Int) (st : GState) :
    (completeLevel tot l s st).bestScores
      = alistSet st.bestScores l (max (bestScoreOr0 st.bestScores l) s) := by
  simp [completeLevel]

lemma completeLevel_totalScore (tot l : Nat) (s : Int) (st : GState) :
    (completeLevel tot l s st).totalScore
      = sumValues (completeLevel tot l s st).bestScores := by
  simp [completeLevel]

lemma bestScoreOr0_completeLevel_self (tot l : Nat) (s : Int) (st : GState) :
    bestScoreOr0 (completeLevel tot l s st).bestScores l
      = max (bestScoreOr0 st.bestScores l) s := by
  rw [completeLevel_bestScores]
  simp [bestScoreOr0, alistLookup_alistSet_self]

lemma bestScoreOr0_completeLevel_mono (tot l : Nat) (s : Int) (st : GState)
    (k : Nat) :
    bestScoreOr0 st.bestScores k
      ≤ bestScoreOr0 (completeLevel tot l s st).bestScores k := by
  by_cases hk : k = l
  · subst hk
    rw [bestScoreOr0_completeLevel_self]
    exact le_max_left _ _
  · rw [completeLevel_bestScores]
    unfold bestScoreOr0
    rw [alistLookup_alistSet_ne _ _ _ _ hk]

lemma completeLevel_unlocked_superset (tot l : Nat) (s : Int) (st : GState)
    (x : Nat) (hx : x ∈ st.unlockedLevels) :
    x ∈ (completeLevel tot l s st).unlockedLevels := by
  simp only [completeLevel]
  split
  · exact List.mem_append_left _ hx
  · exact hx

lemma completeLevel_unlocks_next (tot l : Nat) (s : Int) (st : GState)
    (h : l + 1 ≤ tot) :
    l + 1 ∈ (completeLevel tot l s st).unlockedLevels := by
  simp only [completeLevel]
  split
  · exact List.mem_append_right _ (List.mem_singleton.mpr rfl)
  · rename_i hcond
    rw [Classical.not_and_iff_or_not_not] at hcond
    rcases hcond with hcond | hcond
    · exact absurd h hcond
    · exact Classical.not_not.mp hcond

end Hamada

namespace Hamada

/-- Apply a list of `completeLevel` calls in order. -/
def runCompletions (totalLevels : Nat) (calls : List (Nat × Int))
    (st : GState) : GState :=
  calls.foldl (fun s c => completeLevel totalLevels c.1 c.2 s) st

/-- **C2.** Each `completeLevel(levelId, score)` call sets
`bestScores[levelId]` to `max(existing, score)`; across any sequence of
calls from any state every level's best score is non-decreasing; and after
every call `totalScore` equals the sum of the values in `bestScores`. -/
theorem C2_bestScores_monotone_totalScore_sum :
    (∀ (tot levelId : Nat) (score : Int) (st : GState),
        bestScoreOr0 (completeLevel tot levelId score st).bestScores levelId
          = max (bestScoreOr0 st.bestScores levelId) score) ∧
    (∀ (tot levelId : Nat) (score : Int) (st : GState) (k : Nat),
        bestScoreOr0 st.bestScores k
          ≤ bestScoreOr0 (completeLevel tot levelId score st).bestScores k) ∧
    (∀ (tot levelId : Nat) (score : Int) (st : GState),
        (completeLevel tot levelId score st).totalScore
          = sumValues (completeLevel tot levelId score st).bestScores) ∧
    (∀ (tot : Nat) (calls : List (Nat × Int)) (st : GState) (k : Nat),
        bestScoreOr0 st.bestScores k
          ≤ bestScoreOr0 (runCompletions tot calls st).bestScores k) := by
  refine ⟨bestScoreOr0_completeLevel_self, bestScoreOr0_completeLevel_mono,
    completeLevel_totalScore, ?_⟩
  intro tot calls
  induction calls with
  | nil => intro st k; simp [runCompletions]
  | cons c t ih =>
      intro st k
      simp only [runCompletions, List.foldl_cons]
      exact le_trans (bestScoreOr0_completeLevel_mono tot c.1 c.2 st k)
        (ih (completeLevel tot c.1 c.2 st) k)

/-- **C3.** `completeLevel(L, score)` puts `L+1` into `unlockedLevels`
exactly when `L+1` is at most the total level count (when it is not, and
`L+1` was not already unlocked, it stays locked); and no persisted-state
operation except `resetProgress`/`hardReset` ever removes an entry from
`unlockedLevels`. -/
theorem C3_unlock_iff_and_monotone :
    (∀ (tot levelId : Nat) (score : Int) (st : GState),
        levelId + 1 ≤ tot →
        levelId + 1 ∈ (completeLevel tot levelId score st).unlockedLevels) ∧
    (∀ (tot levelId : Nat) (score : Int) (st : GState),
        tot < levelId + 1 → levelId + 1 ∉ st.unlockedLevels →
        levelId + 1 ∉ (completeLevel tot levelId score st).unlockedLevels) ∧
    (∀ (tot levelId : Nat) (score : Int) (st : GState) (x : Nat),
        x ∈ st.unlockedLevels →
        x ∈ (completeLevel tot levelId score st).unlockedLevels) ∧
    (∀ (tot : Nat) (op : GOp), op.isReset = false →
        ∀ (st : GState) (x : Nat), x ∈ st.unlockedLevels →
          x ∈ (applyGOp tot op st).unlockedLevels) := by
  refine ⟨fun tot l s st h => completeLevel_unlocks_next tot l s st h, ?_,
    fun tot l s st x hx => completeLevel_unlocked_superset tot l s st x hx,
    ?_⟩
  · intro tot l s st hgt hmem
    simp only [completeLevel]
    have : ¬ (l + 1 ≤ tot ∧ l + 1 ∉ st.unlockedLevels) := by
      intro ⟨h1, _⟩; omega
    rw [if_neg this]
    exact hmem
  · intro tot op hop st x hx
    cases op with
    | completeLevelOp l s =>
        simp only [applyGOp]
        exact completeLevel_unlocked_superset tot l s st x hx
    | setPlayerNameOp n =>
        simp only [applyGOp, setPlayerName]
        exact hx
    | updateSettingOp p v =>
        simp only [applyGOp]
        cases h : updateSetting p v st with
        | none => simpa [h] using hx
        | some st2 =>
            have : st2.unlockedLevels = st.unlockedLevels := by
              simp only [updateSetting] at h
              cases h2 : setPathFields st.settings (splitOnDot p) v with
              | none => rw [h2] at h; simp at h
              | some s2 =>
                  rw [h2] at h
                  rw [Option.map_some'] at h
                  cases h
                  rfl
            simpa [h, this] using hx
    | updateSettingsOp u =>
        simp only [applyGOp, updateSettings]
        exact hx
    | toggleMuteOp m =>
        simp only [applyGOp, toggleMuteGS]
        exact hx
    | resetProgressOp => simp [GOp.isReset] at hop
    | hardResetOp g => simp [GOp.isReset] at hop

/-- Witness for C3: completing level 1 (of 4) from the fresh state unlocks
level 2, and a non-reset operation (a `completeLevel` call) preserves the
already-unlocked level 1. -/
theorem C3_unlock_iff_and_monotone_witness :
    2 ∈ (completeLevel 4 1 80 DEFAULT_STATE).unlockedLevels ∧
    1 ∈ GState.unlockedLevels
        (applyGOp 4 (GOp.completeLevelOp 1 80) DEFAULT_STATE) :=
  ⟨C3_unlock_iff_and_monotone.1 4 1 80 DEFAULT_STATE (by norm_num),
   C3_unlock_iff_and_monotone.2.2.2 4 (GOp.completeLevelOp 1 80) rfl
     DEFAULT_STATE 1 (by simp [DEFAULT_STATE])⟩

/-- **C8.** `handleResetProgress` sets `unlockedLevels` to `[1]`, clears
`completedLevels` and `bestScores`, zeroes `totalScore` and `highScore`,
returns `true`, and leaves the settings object and the player profile
(`playerName`, `playerId`) exactly as they were. -/
theorem C8_resetProgress_frame :
    ∀ st : GState,
      (handleResetProgress st).1.unlockedLevels = [1] ∧
      (handleResetProgress st).1.completedLevels = [] ∧
      (handleResetProgress st).1.bestScores = [] ∧
      (handleResetProgress st).1.totalScore = 0 ∧
      (handleResetProgress st).1.highScore = 0 ∧
      (handleResetProgress st).2 = true ∧
      (handleResetProgress st).1.settings = st.settings ∧
      (handleResetProgress st).1.playerName = st.playerName ∧
      (handleResetProgress st).1.playerId = st.playerId :=
  fun _ => ⟨rfl, rfl, rfl, rfl, rfl, rfl, rfl, rfl, rfl⟩

end Hamada

namespace Hamada

/-! ### `completeLevel` idempotence lemmas -/

lemma gstate_eq_of_fields {a b : GState}
    (h1 : a.version = b.version) (h2 : a.playerName = b.playerName)
    (h3 : a.playerId = b.playerId)
    (h4 : a.unlockedLevels = b.unlockedLevels)
    (h5 : a.completedLevels = b.completedLevels)
    (h6 : a.bestScores = b.bestScores) (h7 : a.highScore = b.highScore)
    (h8 : a.totalScore = b.totalScore) (h9 : a.settings = b.settings) :
    a = b := by
  cases a; cases b; simp_all

lemma mem_completed_completeLevel (tot l : Nat) (s : Int) (st : GState) :
    l ∈ (completeLevel tot l s st).completedLevels := by
  simp only [completeLevel]
  split
  · assumption
  · exact List.mem_append_right _ (List.mem_singleton.mpr rfl)

lemma completedLevels_completeLevel_of_mem (tot l : Nat) (s : Int)
    (st : GState) (h : l ∈ st.completedLevels) :
    (completeLevel tot l s st).completedLevels = st.completedLevels := by
  simp [completeLevel, h]

lemma unlockedLevels_completeLevel_of_neg (tot l : Nat) (s : Int)
    (st : GState) (h : ¬ (l + 1 ≤ tot ∧ l + 1 ∉ st.unlockedLevels)) :
    (completeLevel tot l s st).unlockedLevels = st.unlockedLevels := by
  simp only [completeLevel]
  rw [if_neg h]

lemma completeLevel_highScore (tot l : Nat) (s : Int) (st : GState) :
    (completeLevel tot l s st).highScore
      = max st.highScore (sumValues (completeLevel tot l s st).bestScores) := by
  simp [completeLevel]

lemma completeLevel_bestScores_idem (tot l : Nat) (s : Int) (st : GState) :
    (completeLevel tot l s (completeLevel tot l s st)).bestScores
      = (completeLevel tot l s st).bestScores := by
  rw [completeLevel_bestScores tot l s (completeLevel tot l s st),
    bestScoreOr0_completeLevel_self, completeLevel_bestScores tot l s st]
  rw [max_assoc, max_self]
  exact alistSet_alistSet_same _ _ _

lemma completeLevel_idem (tot l : Nat) (s : Int) (st : GState) :
    completeLevel tot l s (completeLevel tot l s st)
      = completeLevel tot l s st := by
  apply gstate_eq_of_fields
  · simp [completeLevel]
  · simp [completeLevel]
  · simp [completeLevel]
  · refine unlockedLevels_completeLevel_of_neg tot l s _ ?_
    rintro ⟨hle, hmem⟩
    exact hmem (completeLevel_unlocks_next tot l s st hle)
  · exact completedLevels_completeLevel_of_mem tot l s _
      (mem_completed_completeLevel tot l s st)
  · exact completeLevel_bestScores_idem tot l s st
  · rw [completeLevel_highScore tot l s (completeLevel tot l s st),
      completeLevel_highScore tot l s st,
      completeLevel_bestScores_idem tot l s st]
    rw [max_assoc, max_self]
  · rw [completeLevel_totalScore tot l s (completeLevel tot l s st),
      completeLevel_totalScore tot l s st,
      completeLevel_bestScores_idem tot l s st]
  · simp [completeLevel]

lemma completedLevels_completeLevel_nodup (tot l : Nat) (s : Int)
    (st : GState) (h : st.completedLevels.Nodup) :
    (completeLevel tot l s st).completedLevels.Nodup := by
  simp only [completeLevel]
  split
  · exact h
  · rename_i hmem
    simp [List.nodup_append, h, hmem]

lemma unlockedLevels_completeLevel_nodup (tot l : Nat) (s : Int)
    (st : GState) (h : st.unlockedLevels.Nodup) :
    (completeLevel tot l s st).unlockedLevels.Nodup := by
  simp only [completeLevel]
  split
  · rename_i hcond
    simp [List.nodup_append, h, hcond.2]
  · exact h

end Hamada

namespace Hamada

/-- **C7.** `completeLevel` is idempotent: repeating a call with the same
arguments leaves the whole persisted state unchanged; it preserves
duplicate-freeness of `completedLevels` and `unlockedLevels`; and
concretely, calling `completeLevel(1, 80)` twice from the fresh state
leaves `bestScores[1] == 80` with level 1 appearing in `completedLevels`
exactly once. -/
theorem C7_completeLevel_idempotent :
    (∀ (tot levelId : Nat) (score : Int) (st : GState),
        completeLevel tot levelId score (completeLevel tot levelId score st)
          = completeLevel tot levelId score st) ∧
    (∀ (tot levelId : Nat) (score : Int) (st : GState),
        st.completedLevels.Nodup →
        (completeLevel tot levelId score st).completedLevels.Nodup) ∧
    (∀ (tot levelId : Nat) (score : Int) (st : GState),
        st.unlockedLevels.Nodup →
        (completeLevel tot levelId score st).unlockedLevels.Nodup) ∧
    bestScoreOr0 (runCompletions 4 [(1, 80), (1, 80)] DEFAULT_STATE).bestScores
      1 = 80 ∧
    (runCompletions 4 [(1, 80), (1, 80)] DEFAULT_STATE).completedLevels.count
      1 = 1 ∧
    (runCompletions 4 [(1, 80), (1, 80)] DEFAULT_STATE).completedLevels.Nodup ∧
    (runCompletions 4 [(1, 80), (1, 80)] DEFAULT_STATE).unlockedLevels.Nodup :=
  ⟨completeLevel_idem, completedLevels_completeLevel_nodup,
   unlockedLevels_completeLevel_nodup, by decide, by decide, by decide,
   by decide⟩

/-- Witness for C7: the nodup-preservation conjuncts applied to the fresh
state (whose lists are duplicate-free). -/
theorem C7_completeLevel_idempotent_witness :
    (completeLevel 4 1 80 DEFAULT_STATE).completedLevels.Nodup ∧
    (completeLevel 4 1 80 DEFAULT_STATE).unlockedLevels.Nodup :=
  ⟨C7_completeLevel_idempotent.2.1 4 1 80 DEFAULT_STATE (by decide),
   C7_completeLevel_idempotent.2.2.1 4 1 80 DEFAULT_STATE (by decide)⟩

end Hamada


namespace Hamada

/-- Replace the settings object of a state. -/
def withSettings (st : GState) (s : List (String × JVal)) : GState :=
  { st with settings := s }

/-- **C9.** On a state whose settings object has the standard shape (any
leaf values), `updateSetting('audio.musicVolume', 42)` rewrites exactly the
`audio.musicVolume` leaf — the result is the same state with only that leaf
replaced, so every other field keeps its prior value — and persisting the
result then loading it back through `loadPersistedState` (the JSON
stringify/parse pair is the identity on the blob) returns the state
unchanged, with `settings.audio.musicVolume = 42` still in place. -/
theorem C9_updateSetting_roundtrip :
    ∀ (st : GState) (mv sv mm sm en it srm hc rm : JVal) (pid gen : String),
      st.settings = mkSettings mv sv mm sm en it srm hc rm →
      st.playerId = some pid → pid ≠ "" →
      updateSetting "audio.musicVolume" (JVal.jnum 42) st
        = some (withSettings st
            (mkSettings (JVal.jnum 42) sv mm sm en it srm hc rm)) ∧
      loadPersistedState gen
          (withSettings st
            (mkSettings (JVal.jnum 42) sv mm sm en it srm hc rm))
        = withSettings st
            (mkSettings (JVal.jnum 42) sv mm sm en it srm hc rm) := by
  intro st mv sv mm sm en it srm hc rm pid gen hs hpid hne
  have hm : mergeSettingsWithDefaults
      (mkSettings (JVal.jnum 42) sv mm sm en it srm hc rm)
      = mkSettings (JVal.jnum 42) sv mm sm en it srm hc rm := rfl
  constructor
  · simp only [updateSetting, withSettings, hs]
    rfl
  · apply gstate_eq_of_fields <;>
      simp [loadPersistedState, withSettings, hpid, hne, hm]

/-- Witness for C9: the round trip at the fresh state (default settings,
player id `"player_abc"`). -/
theorem C9_updateSetting_roundtrip_witness :
    updateSetting "audio.musicVolume" (JVal.jnum 42)
        { DEFAULT_STATE with playerId := some "player_abc" }
      = some (withSettings { DEFAULT_STATE with playerId := some "player_abc" }
          (mkSettings (JVal.jnum 42) (JVal.jnum 80) (JVal.jbool false)
            (JVal.jbool false) (JVal.jbool true) (JVal.jnum 0.7)
            (JVal.jbool false) (JVal.jbool false) (JVal.jbool false))) ∧
    loadPersistedState "gen"
        (withSettings { DEFAULT_STATE with playerId := some "player_abc" }
          (mkSettings (JVal.jnum 42) (JVal.jnum 80) (JVal.jbool false)
            (JVal.jbool false) (JVal.jbool true) (JVal.jnum 0.7)
            (JVal.jbool false) (JVal.jbool false) (JVal.jbool false)))
      = withSettings { DEFAULT_STATE with playerId := some "player_abc" }
          (mkSettings (JVal.jnum 42) (JVal.jnum 80) (JVal.jbool false)
            (JVal.jbool false) (JVal.jbool true) (JVal.jnum 0.7)
            (JVal.jbool false) (JVal.jbool false) (JVal.jbool false)) :=
  C9_updateSetting_roundtrip
    { DEFAULT_STATE with playerId := some "player_abc" }
    (JVal.jnum 70) (JVal.jnum 80) (JVal.jbool false) (JVal.jbool false)
    (JVal.jbool true) (JVal.jnum 0.7) (JVal.jbool false) (JVal.jbool false)
    (JVal.jbool false) "player_abc" "gen" rfl rfl (by decide)

end Hamada

namespace Hamada

/-! ## Asset preloader (`useAssetPreloader.js`)

`preloadLevel` collects the level's images (base, complete, four options —
6 distinct uncached paths), starts them all, and awaits `Promise.all` of
one async continuation per image (`await preloadImage(src); loaded++;
setProgress(round(loaded/total*100))`).  A run is abstracted by its settle
order: `events` lists, in the order the images settle, whether each one
loaded (`true`) or errored (`false`).  `Promise.all` resolves after the
last success when all succeed (then the `try` branch sets `isReady`), and
rejects at the *first* failure (then the `catch` branch sets `isReady`);
continuations of images that settle later keep running and still bump
`progress`.  The model below folds the settle events over this
semantics. -/

structure PLState where
  loaded : Nat
  progress : Nat
  isReady : Bool
  failed : Bool
  settled : Nat
  deriving Repr, DecidableEq

/-- State after `setIsReady(false); setProgress(0)` at the start of
`preloadLevel`. -/
def plInit : PLState :=
  { loaded := 0, progress := 0, isReady := false, failed := false,
    settled := 0 }

/-- `Math.round((loaded / total) * 100)` on naturals (round half up). -/
def jsRoundPct (loaded total : Nat) : Nat :=
  (200 * loaded + total) / (2 * total)

/-- One image settling.  Success: its continuation increments `loaded` and
reports progress; if that was the last of `total` images (necessarily with
no earlier failure), `Promise.all` resolves and the `try` branch sets
`isReady`.  Failure: the first one rejects `Promise.all`, whose `catch`
logs and sets `isReady`; later failures are absorbed by the already-settled
aggregate promise. -/
def plStep (total : Nat) (st : PLState) (ok : Bool) : PLState :=
  let st1 := { st with settled := st.settled + 1 }
  if ok then
    let loaded := st1.loaded + 1
    let st2 :=
      { st1 with loaded := loaded, progress := jsRoundPct loaded total }
    if loaded = total ∧ st2.failed = false then { st2 with isReady := true }
    else st2
  else
    if st1.failed then st1
    else { st1 with failed := true, isReady := true }

/-- The state at the end of a settle sequence. -/
def runPreload (total : Nat) (events : List Bool) : PLState :=
  events.foldl (plStep total) plInit

/-- How many images had settled at the moment `isReady` first became true
(`none` if it never did). -/
def readyPoint (total : Nat) : List Bool → PLState → Option Nat
  | [], _ => none
  | e :: t, st =>
      let st2 := plStep total st e
      if st2.isReady = true ∧ st.isReady = false then some st2.settled
      else readyPoint total t st2

def readyAt (total : Nat) (events : List Bool) : Option Nat :=
  readyPoint total events plInit

lemma list_length_six {α : Type} (l : List α) (h : l.length = 6) :
    ∃ a b c d e f, l = [a, b, c, d, e, f] := by
  obtain ⟨a, l, rfl⟩ := List.exists_of_length_succ l h
  rw [List.length_cons] at h
  have h1 : l.length = 5 := by omega
  obtain ⟨b, l, rfl⟩ := List.exists_of_length_succ l h1
  rw [List.length_cons] at h1
  have h2 : l.length = 4 := by omega
  obtain ⟨c, l, rfl⟩ := List.exists_of_length_succ l h2
  rw [List.length_cons] at h2
  have h3 : l.length = 3 := by omega
  obtain ⟨d, l, rfl⟩ := List.exists_of_length_succ l h3
  rw [List.length_cons] at h3
  have h4 : l.length = 2 := by omega
  obtain ⟨e, l, rfl⟩ := List.exists_of_length_succ l h4
  rw [List.length_cons] at h4
  have h5 : l.length = 1 := by omega
  obtain ⟨f, l, rfl⟩ := List.exists_of_length_succ l h5
  rw [List.length_cons] at h5
  have h6 : l.length = 0 := by omega
  rw [List.length_eq_zero] at h6
  subst h6
  exact ⟨a, b, c, d, e, f, rfl⟩

/-- **C4 (counterexample).** The claim says `isReady` becomes true only
after all 6 images have settled and that progress reaches 100% when the
last settles.  In the run where the failing image settles first,
`Promise.all` rejects immediately and the `catch` sets `isReady` while 5
images are still in flight: `isReady` became true with only 1 of 6
settled, and even after all 6 settle, progress is 83, never 100. -/
theorem C4_isReady_before_all_settled :
    readyAt 6 [false, true, true, true, true, true] = some 1 ∧
    (runPreload 6 [false, true, true, true, true, true]).isReady = true ∧
    (runPreload 6 [false, true, true, true, true, true]).settled = 6 ∧
    (runPreload 6 [false, true, true, true, true, true]).progress = 83 := by
  decide

/-- **C4 (amended).** For a level with 6 distinct image paths: in a run
where all 6 load successfully, `isReady` becomes true exactly when the 6th
image settles and reported progress reaches 100% exactly then (strictly
below 100 before); in every run — failures included — the preload resolves
with `isReady = true`, never hanging or rejecting to the caller; and when
some image fails, `isReady` becomes true at the moment the first failure
settles (which may be before the remaining images settle). -/
theorem C4_preloader_settles :
    (∀ events : List Bool, events.length = 6 →
        (∀ e ∈ events, e = true) →
        readyAt 6 events = some 6 ∧
        (runPreload 6 events).progress = 100 ∧
        (∀ k : Nat, k < 6 →
          (runPreload 6 (events.take k)).progress < 100)) ∧
    (∀ events : List Bool, events.length = 6 →
        (runPreload 6 events).isReady = true) ∧
    (∀ events : List Bool, events.length = 6 → false ∈ events →
        readyAt 6 events
          = some ((events.takeWhile (fun e => e = true)).length + 1)) := by
  refine ⟨?_, ?_, ?_⟩
  · intro events h6 hall
    obtain ⟨a, b, c, d, e, f, rfl⟩ := list_length_six events h6
    clear h6
    revert hall
    revert a b c d e f
    decide
  · intro events h6
    obtain ⟨a, b, c, d, e, f, rfl⟩ := list_length_six events h6
    clear h6
    revert a b c d e f
    decide
  · intro events h6 hf
    obtain ⟨a, b, c, d, e, f, rfl⟩ := list_length_six events h6
    clear h6
    revert hf
    revert a b c d e f
    decide

/-- Witness for C4: the all-success run reaches ready exactly at the 6th
settle, and a run with an early failure still ends ready. -/
theorem C4_preloader_settles_witness :
    readyAt 6 [true, true, true, true, true, true] = some 6 ∧
    (runPreload 6 [true, false, true, true, true, true]).isReady = true ∧
    readyAt 6 [true, false, true, true, true, true] = some 2 :=
  ⟨(C4_preloader_settles.1 [true, true, true, true, true, true] rfl
      (by decide)).1,
   C4_preloader_settles.2.1 [true, false, true, true, true, true] rfl,
   C4_preloader_settles.2.2 [true, false, true, true, true, true] rfl
     (by decide)⟩

end Hamada
